import Mathlib

/-!
Verification of the tesslocate spatial-index program (src/main.cpp) against its
natural-language specification.  The geometry/indexing core is shallowly
embedded: coordinates are exact rationals, an S2 point is modelled by its
normalized (ra, dec) degree pair (S2LatLng::FromDegrees(...).ToPoint() is a
deterministic function, so equal coordinate pairs yield bit-identical S2Points),
and the external S2 containment primitive is an arbitrary Boolean-valued
parameter of the search model.  Undefined behavior in the C++ source (an
out-of-bounds vector index, a null-pointer dereference, a failed assert) is
modelled by explicit crash states.
-/

namespace Tesslocate

/-- Model of an S2Point produced from right ascension and declination degrees:
the pair recorded after RA normalization.  Equality of pairs implies
bit-identical unit vectors in the C++ code, since the conversion is a
deterministic function of the pair. -/
structure Point where
  ra : ℚ
  dec : ℚ
deriving DecidableEq, Repr

/-- Model of radec_point (main.cpp lines 100-104): normalize ra to
the [-180, 180] convention, then convert; the conversion is the identity in
this model of the point. -/
def radec_point (ra dec : ℚ) : Point :=
  let ra' := if ra > 180 then ra - 360 else ra
  ⟨ra', dec⟩

/-- Model of the per-vertex conversion inside load_region (main.cpp lines
130-139): the same normalization expression followed by the same
FromDegrees/ToPoint conversion. -/
def region_vertex (ra dec : ℚ) : Point :=
  let ra' := if ra > 180 then ra - 360 else ra
  ⟨ra', dec⟩

/-- Whitespace characters of the C locale, as skipped by strtod. -/
def isSpaceC (c : Char) : Bool :=
  c = ' ' || c = '\t' || c = '\n' || c = '\x0b' || c = '\x0c' || c = '\r'

/-- Value of a digit string, most significant digit first. -/
def digitsToNat (ds : List Char) : Nat :=
  ds.foldl (fun n c => 10 * n + (c.toNat - '0'.toNat)) 0

/-- Strip an optional leading sign; the Boolean records a minus sign. -/
def dropSign (cs : List Char) : List Char × Bool :=
  match cs with
  | c :: rest => if c = '+' then (rest, false) else if c = '-' then (rest, true) else (cs, false)
  | [] => ([], false)

/-- Fractional part after the integer digits: when the remainder starts with a
decimal point, its following digit run, together with the remainder after those
digits; otherwise nothing. -/
def fracPart (r1 : List Char) : List Char × List Char :=
  match r1 with
  | c :: rest =>
      if c = '.' then (rest.takeWhile Char.isDigit, rest.dropWhile Char.isDigit) else ([], r1)
  | [] => ([], [])

/-- Exponent digits with a sign flag; an empty digit run means the exponent
part is not consumed (longest-valid-prefix rule of strtod). -/
def expDigits (ds : List Char) (neg : Bool) : Int :=
  let t := ds.takeWhile Char.isDigit
  if t = [] then 0 else if neg then -(digitsToNat t : Int) else (digitsToNat t : Int)

/-- Optional exponent part of a decimal literal. -/
def expOf (r2 : List Char) : Int :=
  match r2 with
  | c :: rest =>
      if c = 'e' || c = 'E' then
        match rest with
        | s :: ds =>
            if s = '+' then expDigits ds false
            else if s = '-' then expDigits ds true
            else expDigits rest false
        | [] => 0
      else 0
  | [] => 0

/-- Power of ten as a rational, written structurally so that concrete values
reduce. -/
def tenPow : Nat → ℚ
  | 0 => 1
  | n + 1 => 10 * tenPow n

/-- Scaling by a signed power of ten: multiplication for a nonnegative
exponent, division for a negative one. -/
def scaleExp (q : ℚ) : Int → ℚ
  | .ofNat n => q * tenPow n
  | .negSucc n => q / tenPow (n + 1)

/-- Unsigned decimal body of strtod: integer digits, optional fraction,
optional exponent; fails exactly when no digit is consumed. -/
def stodNum (cs : List Char) : Option ℚ :=
  let ip := cs.takeWhile Char.isDigit
  let r1 := cs.dropWhile Char.isDigit
  let fp := (fracPart r1).1
  let r2 := (fracPart r1).2
  if ip = [] ∧ fp = [] then none
  else
    some (scaleExp ((digitsToNat ip : ℚ) + (digitsToNat fp : ℚ) / tenPow fp.length)
      (expOf r2))

/-- Model of std::stod on the decimal grammar: skip C-locale whitespace, an
optional sign, then the longest valid decimal prefix; trailing characters are
ignored, and the result is none exactly when no conversion is performed
(std::invalid_argument).  Hexadecimal, infinity and NaN spellings and the
out-of-range double condition do not arise for the coordinate data and are
outside the model, which computes the exact rational value. -/
def stod (s : String) : Option ℚ :=
  let cs := s.data.dropWhile isSpaceC
  let sp := dropSign cs
  (stodNum sp.1).map (fun q => if sp.2 then -q else q)

/-- Character-list splitting on the space character, with the semantics of
String.split: an empty input gives one empty group, and every separator starts
a new group. -/
def splitChars : List Char → List (List Char)
  | [] => [[]]
  | c :: rest =>
      if c = ' ' then [] :: splitChars rest
      else
        match splitChars rest with
        | g :: gs => (c :: g) :: gs
        | [] => [[c]]

/-- Model of the std::getline tokenization loop of load_region (main.cpp lines
109-114): getline with the space delimiter yields the space-separated fields,
except that it produces no field after a trailing delimiter and no field at all
for the empty string. -/
def splitParts (s : String) : List String :=
  if s.data = [] then []
  else
    let gs := (splitChars s.data).map (fun cs => String.mk cs)
    if s.data.getLast? = some ' ' then gs.dropLast else gs

/-- Result of load_region: a parsed vertex list, the nullptr failure return, or
undefined behavior (indexing parts[0] of an empty vector). -/
inductive LoadResult
  | ok (points : List Point)
  | failed
  | crash
deriving DecidableEq, Repr

/-- Coordinate-pair loop of load_region (main.cpp lines 126-140): consume the
tokens after POLYGON two at a time; a token std::stod cannot convert aborts the
polygon (nullptr). -/
def parsePairs : List String → Option (List Point)
  | raTok :: decTok :: rest =>
      match stod raTok, stod decTok with
      | some ra, some dec => (parsePairs rest).map (fun ps => region_vertex ra dec :: ps)
      | _, _ => none
  | [_] => none
  | [] => some []

/-- Closing-duplicate removal of load_region (main.cpp lines 142-144): when at
least two points were parsed and the first equals the last, drop the last. -/
def dedupClose (ps : List Point) : List Point :=
  if 2 ≤ ps.length ∧ ps.head? = ps.getLast? then ps.dropLast else ps

/-- Model of load_region (main.cpp lines 108-150).  An empty token vector makes
the C++ code read parts[0] out of bounds, which is undefined behavior, modelled
as crash.  No minimum vertex count is checked: whatever survives the closing
duplicate removal is handed to S2Loop and returned. -/
def load_region (region : String) : LoadResult :=
  match splitParts region with
  | [] => .crash
  | p0 :: rest =>
      if p0 ≠ "POLYGON" then .failed
      else if rest.length % 2 ≠ 0 then .failed
      else
        match parsePairs rest with
        | none => .failed
        | some ps => .ok (dedupClose ps)

/-- State of IndexedPolygons: the observation-ID list and, for each added
shape id in order, the vertex list of the polygon it wraps. -/
structure IndexedPolygons where
  names : List String
  polygons : List (List Point)
deriving DecidableEq, Repr

/-- Result of IndexedPolygons::load: the built index, or a crash (a failed
assert, undefined behavior inside load_region, or the null-pointer dereference
performed by S2Polygon::Shape when load_region returned nullptr). -/
inductive BuildResult
  | ok (idx : IndexedPolygons)
  | crash
deriving DecidableEq, Repr

/-- Region loop of IndexedPolygons::load (main.cpp lines 165-169): every
region is parsed and its polygon wrapped in an S2Polygon::Shape and added to
the index.  When load_region returns nullptr, Shape::Init dereferences the
null polygon pointer, which is undefined behavior, modelled as failure of the
whole build. -/
def buildPolygons : List String → Option (List (List Point))
  | [] => some []
  | r :: rs =>
      match load_region r with
      | .ok ps => (buildPolygons rs).map (fun l => ps :: l)
      | .failed => none
      | .crash => none

/-- Model of IndexedPolygons::load (main.cpp lines 158-172): the assert that
the two dataset columns have equal length, then one shape and one polygon
appended per region in dataset order, alongside the ID list. -/
def IndexedPolygons.load (obs_ids regions : List String) : BuildResult :=
  if obs_ids.length ≠ regions.length then .crash
  else
    match buildPolygons regions with
    | some ps => .ok ⟨obs_ids, ps⟩
    | none => .crash

/-- Visit of S2ContainsPointQuery::VisitContainingShapes in shape-id order
(main.cpp lines 176-180): each shape whose polygon contains the point
contributes names[shape->id()], and the callback always continues. -/
def searchAux (names : List String) (contains : List Point → Point → Bool)
    (pt : Point) : List (List Point) → Nat → List String
  | [], _ => []
  | ps :: rest, i =>
      if contains ps pt then names.getD i "" :: searchAux names contains pt rest (i + 1)
      else searchAux names contains pt rest (i + 1)

/-- Model of IndexedPolygons::search (main.cpp lines 174-183), parameterized
by the external S2 containment predicate. -/
def IndexedPolygons.search (idx : IndexedPolygons)
    (contains : List Point → Point → Bool) (pt : Point) : List String :=
  searchAux idx.names contains pt idx.polygons 0

/-- Input record of the batch loop: the ID, ra and dec columns of one CSV
row. -/
structure Row where
  ID : String
  ra : ℚ
  dec : ℚ
deriving DecidableEq, Repr

/-- Output record (main.cpp lines 186-193). -/
structure Target where
  ID : String
  ra : ℚ
  dec : ℚ
  observations : List String
deriving DecidableEq, Repr

/-- Default-constructed Target, the initial content of the pre-sized results
vector. -/
def defaultTarget : Target := ⟨"", 0, 0, []⟩

/-- Default-constructed Row, used only for out-of-range indexing in the
schedule model; workers of the actual loop use only valid indices. -/
def defaultRow : Row := ⟨"", 0, 0⟩

/-- Body of one iteration of the batch loop (main.cpp lines 231-238): copy
ID, ra, dec from the row and attach the search result for the normalized
query point. -/
def locateOne (idx : IndexedPolygons) (contains : List Point → Point → Bool)
    (r : Row) : Target :=
  ⟨r.ID, r.ra, r.dec, idx.search contains (radec_point r.ra r.dec)⟩

/-- Sequential description of the batch result: one Target per row, in row
order. -/
def locate (idx : IndexedPolygons) (contains : List Point → Point → Bool)
    (rows : List Row) : List Target :=
  rows.map (locateOne idx contains)

/-- Model of the parallel batch loop (main.cpp lines 226-247): the results
vector is pre-sized to the row count, and the workers, in an arbitrary
completion order given by the schedule, each write only the slot of their own
record index. -/
def runSchedule (idx : IndexedPolygons) (contains : List Point → Point → Bool)
    (rows : List Row) (order : List Nat) : List Target :=
  order.foldl (fun acc i => acc.set i (locateOne idx contains (rows.getD i defaultRow)))
    (List.replicate rows.length defaultTarget)

/-- Claim characterization following the claim's words: the token, after
C-locale whitespace and an optional sign, starts with a digit or with a
decimal point followed by a digit. -/
def startsNumeric (cs : List Char) : Bool :=
  match cs with
  | [] => false
  | c :: rest => c.isDigit || (c = '.' && (rest.headD 'x').isDigit)

/-- Claim characterization of a leading numeric prefix of a whole token. -/
def hasNumericStart (s : String) : Bool :=
  startsNumeric (dropSign (s.data.dropWhile isSpaceC)).1

section SearchLemmas

/-- Visiting shapes none of which contains the point yields no results. -/
theorem searchAux_eq_nil (names : List String) (contains : List Point → Point → Bool)
    (pt : Point) (polys : List (List Point)) :
    ∀ i : Nat, (∀ ps ∈ polys, contains ps pt = false) →
      searchAux names contains pt polys i = [] := by
  induction polys with
  | nil => intro i _; rfl
  | cons p rest ih =>
      intro i h
      have hp : contains p pt = false := h p (List.mem_cons_self p rest)
      simp only [searchAux, hp]
      simp only [Bool.false_eq_true, if_false]
      exact ih (i + 1) (fun ps hps => h ps (List.mem_cons_of_mem p hps))

/-- Every result of the visit is the name at a position whose polygon contains
the point, offset by the starting shape id. -/
theorem mem_searchAux (names : List String) (contains : List Point → Point → Bool)
    (pt : Point) (polys : List (List Point)) :
    ∀ (i : Nat) (n : String), n ∈ searchAux names contains pt polys i →
      ∃ j, j < polys.length ∧ contains (polys.getD j []) pt = true ∧
        n = names.getD (i + j) "" := by
  induction polys with
  | nil => intro i n h; simp only [searchAux] at h; cases h
  | cons p rest ih =>
      intro i n h
      by_cases hc : contains p pt = true
      · simp only [searchAux, hc, if_true] at h
        rcases List.mem_cons.1 h with h1 | h1
        · exact ⟨0, Nat.succ_pos _, hc, by simpa using h1⟩
        · rcases ih (i + 1) n h1 with ⟨j, hj, hcj, hn⟩
          refine ⟨j + 1, Nat.succ_lt_succ hj, hcj, ?_⟩
          rw [hn]
          congr 1
          omega
      · simp only [searchAux, hc, if_false] at h
        rcases ih (i + 1) n h with ⟨j, hj, hcj, hn⟩
        refine ⟨j + 1, Nat.succ_lt_succ hj, hcj, ?_⟩
        rw [hn]
        congr 1
        omega

/-- Conversely, a position whose polygon contains the point is reported under
the name at the corresponding offset id. -/
theorem searchAux_mem_of_contains (names : List String)
    (contains : List Point → Point → Bool) (pt : Point) (polys : List (List Point)) :
    ∀ (i j : Nat), j < polys.length → contains (polys.getD j []) pt = true →
      names.getD (i + j) "" ∈ searchAux names contains pt polys i := by
  induction polys with
  | nil => intro i j hj _; exact absurd hj (Nat.not_lt_zero j)
  | cons p rest ih =>
      intro i j hj hc
      cases j with
      | zero =>
          have hp : contains p pt = true := by simpa using hc
          simp only [searchAux, hp, if_true, Nat.add_zero]
          exact List.mem_cons_self _ _
      | succ j' =>
          have hmem := ih (i + 1) j' (Nat.lt_of_succ_lt_succ hj) (by simpa using hc)
          have harith : i + (j' + 1) = (i + 1) + j' := by omega
          rw [harith]
          by_cases hp : contains p pt = true
          · simp only [searchAux, hp, if_true]
            exact List.mem_cons_of_mem _ hmem
          · simp only [searchAux, hp, if_false]
            exact hmem

/-- Characterization of a successful region loop: one polygon per region, in
dataset order, each the parse of its own region string. -/
theorem buildPolygons_spec (regions : List String) :
    ∀ ps : List (List Point), buildPolygons regions = some ps →
      ps.length = regions.length ∧
        ∀ i, i < regions.length → load_region (regions.getD i "") = .ok (ps.getD i []) := by
  induction regions with
  | nil =>
      intro ps h
      simp only [buildPolygons, Option.some.injEq] at h
      subst h
      exact ⟨rfl, fun i hi => absurd hi (Nat.not_lt_zero i)⟩
  | cons r rs ih =>
      intro ps h
      cases hr : load_region r with
      | ok pts =>
          simp only [buildPolygons, hr] at h
          rcases Option.map_eq_some'.1 h with ⟨tail, htail, hps⟩
          subst hps
          rcases ih tail htail with ⟨hlen, hidx⟩
          refine ⟨by simp [hlen], ?_⟩
          intro i hi
          cases i with
          | zero => simpa using hr
          | succ i' => exact hidx i' (Nat.lt_of_succ_lt_succ hi)
      | failed => simp only [buildPolygons, hr] at h; exact Option.noConfusion h
      | crash => simp only [buildPolygons, hr] at h; exact Option.noConfusion h

end SearchLemmas

section ScheduleLemmas

/-- Length of the results vector is unchanged by any sequence of slot
writes. -/
theorem foldl_set_length (f : Nat → Target) (order : List Nat) :
    ∀ init : List Target,
      (order.foldl (fun acc i => acc.set i (f i)) init).length = init.length := by
  induction order with
  | nil => intro init; rfl
  | cons i rest ih =>
      intro init
      simp only [List.foldl_cons]
      rw [ih, List.length_set]

/-- A slot written by no worker of the schedule keeps its initial content. -/
theorem foldl_set_get_not_mem (f : Nat → Target) (order : List Nat) :
    ∀ (init : List Target) (j : Nat), j ∉ order →
      (order.foldl (fun acc i => acc.set i (f i)) init).get? j = init.get? j := by
  induction order with
  | nil => intro init j _; rfl
  | cons i rest ih =>
      intro init j hj
      rw [List.mem_cons, not_or] at hj
      simp only [List.foldl_cons]
      rw [ih _ _ hj.2, List.get?_set_ne _ _ (fun e => hj.1 e.symm)]

/-- A slot written by some worker holds that worker's value, which depends only
on the slot index. -/
theorem foldl_set_get_mem (f : Nat → Target) (order : List Nat) :
    ∀ (init : List Target) (j : Nat), j ∈ order → j < init.length →
      (order.foldl (fun acc i => acc.set i (f i)) init).get? j = some (f j) := by
  induction order with
  | nil => intro init j hj _; cases hj
  | cons i rest ih =>
      intro init j hj hlen
      simp only [List.foldl_cons]
      by_cases hr : j ∈ rest
      · exact ih _ _ hr (by rw [List.length_set]; exact hlen)
      · have hij : j = i := by
          rcases List.mem_cons.1 hj with h | h
          · exact h
          · exact absurd h hr
        subst hij
        rw [foldl_set_get_not_mem f rest _ _ hr]
        exact List.get?_set_eq_of_lt _ hlen

/-- Any schedule that covers every record index, with each worker writing only
its own valid slot, produces exactly the sequential batch result. -/
theorem runSchedule_eq_locate (idx : IndexedPolygons)
    (contains : List Point → Point → Bool) (rows : List Row) (order : List Nat)
    (hcover : ∀ j, j < rows.length → j ∈ order)
    (hvalid : ∀ j, j ∈ order → j < rows.length) :
    runSchedule idx contains rows order = locate idx contains rows := by
  have hlenr : (List.replicate rows.length defaultTarget).length = rows.length :=
    List.length_replicate ..
  apply List.ext_get?
  intro j
  by_cases hj : j < rows.length
  · rw [runSchedule, foldl_set_get_mem (fun i => locateOne idx contains (rows.getD i defaultRow))
      order _ j (hcover j hj) (by rw [hlenr]; exact hj)]
    rw [locate, List.get?_map, List.get?_eq_get hj]
    simp only [Option.map_some']
    rw [List.getD_eq_get?, List.get?_eq_get hj]
    rfl
  · have hjo : j ∉ order := fun hmem => hj (hvalid j hmem)
    rw [runSchedule, foldl_set_get_not_mem _ order _ j hjo]
    rw [locate, List.get?_map]
    have h2 : rows.get? j = none := List.get?_eq_none.2 (by omega)
    have h3 : (List.replicate rows.length defaultTarget).get? j = none :=
      List.get?_eq_none.2 (by rw [hlenr]; omega)
    rw [h2, h3]
    rfl

end ScheduleLemmas

section StodLemmas

/-- Decimal body parsing fails exactly when the character list does not start
with a digit or with a decimal point followed by a digit. -/
theorem stodNum_eq_none_iff (cs : List Char) :
    stodNum cs = none ↔ startsNumeric cs = false := by
  have h1 : stodNum cs = none ↔
      (cs.takeWhile Char.isDigit = [] ∧ (fracPart (cs.dropWhile Char.isDigit)).1 = []) := by
    simp only [stodNum]
    by_cases hc : cs.takeWhile Char.isDigit = [] ∧ (fracPart (cs.dropWhile Char.isDigit)).1 = []
    · simp [hc]
    · simp [hc]
  rw [h1]
  cases cs with
  | nil => simp [fracPart, startsNumeric]
  | cons c rest =>
      by_cases hd : c.isDigit
      · simp [List.takeWhile_cons_of_pos hd, startsNumeric, hd]
      · rw [List.takeWhile_cons_of_neg hd, List.dropWhile_cons_of_neg hd]
        by_cases hdot : c = '.'
        · subst hdot
          cases rest with
          | nil => simp [fracPart, startsNumeric]
          | cons d rest' =>
              by_cases hdd : d.isDigit
              · simp [fracPart, startsNumeric, hd, hdd, List.takeWhile_cons_of_pos hdd]
              · simp [fracPart, startsNumeric, hd, hdd, List.takeWhile_cons_of_neg hdd]
        · simp [fracPart, startsNumeric, hd, hdot]

/-- Conversion by std::stod fails exactly when the token has no leading
numeric prefix after optional whitespace and sign. -/
theorem stod_eq_none_iff (s : String) : stod s = none ↔ hasNumericStart s = false := by
  simp only [stod, hasNumericStart]
  rw [Option.map_eq_none']
  exact stodNum_eq_none_iff _

end StodLemmas

section ClaimTheorems

attribute [local semireducible] Rat.mul Rat.add Rat.sub Rat.inv

/-- C1 (code bug): the spec requires a region that fails parsing to be skipped
without aborting the build, with later well-formed regions still indexed.  In
the code, load_region does return the null failure result for the malformed
region, but IndexedPolygons::load wraps that null pointer in an
S2Polygon::Shape without checking it, dereferencing null and aborting the
whole build, so the later well-formed region is never registered. -/
theorem c1_malformed_region_crashes_build :
    load_region "POLYGON 1 2 3" = .failed ∧
    IndexedPolygons.load ["a", "b", "c"]
      ["POLYGON 0 0 10 0 10 10", "POLYGON 1 2 3", "POLYGON 20 20 30 20 30 30"] = .crash := by
  exact ⟨by decide, by decide⟩

/-- C2 (code bug): the spec requires a polygon with fewer than 3 points after
closing-duplicate removal to be rejected, but load_region performs no minimum
vertex-count check: a one-point descriptor and a two-points-after-dedup
descriptor both parse to a polygon, and the one-point polygon is registered in
the index. -/
theorem c2_degenerate_polygon_registered :
    load_region "POLYGON 1 2" = .ok [⟨1, 2⟩] ∧
    load_region "POLYGON 0 0 10 10 0 0" = .ok [⟨0, 0⟩, ⟨10, 10⟩] ∧
    IndexedPolygons.load ["obs1"] ["POLYGON 1 2"] = .ok ⟨["obs1"], [[⟨1, 2⟩]]⟩ := by
  exact ⟨by decide, by decide, by decide⟩

/-- C3 counterexample: for the region string with no tokens at all (the empty
string), the tokenization loop leaves the parts vector empty and the code
indexes parts[0] out of bounds (undefined behavior) instead of failing with
the unrecognized-region-type error; moreover a failed record is fatal to the
build because of the missing null check (see C1). -/
theorem c3_counterexample :
    load_region "" = .crash ∧ load_region "" ≠ .failed ∧
    IndexedPolygons.load ["a", "b"] ["LINE 1 2 3 4", "POLYGON 0 0 10 0 10 10"] = .crash := by
  exact ⟨by decide, by decide, by decide⟩

/-- C3 amended: for every region descriptor with at least one token whose
first token is not the literal POLYGON, load_region fails with the
unrecognized-region-type error (null return). -/
theorem c3_amended_non_polygon_fails (s : String) (p0 : String) (rest : List String)
    (hsplit : splitParts s = p0 :: rest) (hp : p0 ≠ "POLYGON") :
    load_region s = .failed := by
  unfold load_region
  rw [hsplit]
  simp [hp]

/-- Witness for the amended C3 theorem at the spec's own example token
LINE. -/
theorem c3_amended_non_polygon_fails_witness :
    splitParts "LINE 1 2 3 4" = "LINE" :: ["1", "2", "3", "4"] ∧
    ("LINE" : String) ≠ "POLYGON" ∧
    load_region "LINE 1 2 3 4" = .failed := by
  have hs : splitParts "LINE 1 2 3 4" = "LINE" :: ["1", "2", "3", "4"] := by decide
  have hp : ("LINE" : String) ≠ "POLYGON" := by decide
  exact ⟨hs, hp, c3_amended_non_polygon_fails "LINE 1 2 3 4" "LINE" ["1", "2", "3", "4"] hs hp⟩

/-- C4: the RA normalization mapping any ra above 180 to ra - 360 is the same
function on polygon vertices (region_vertex) and on query points (radec_point);
in particular a vertex given as ra 359 and one given as ra -1 produce the same
point, a polygon string using 359 parses to the same polygon as one using -1,
and any containment-based search answers identically on the query points built
from ra 359 and ra -1. -/
theorem c4_ra_normalization_consistent :
    (∀ ra dec : ℚ, region_vertex ra dec = radec_point ra dec) ∧
    (∀ dec : ℚ, radec_point 359 dec = radec_point (-1) dec) ∧
    load_region "POLYGON 359 0 2 0 2 2" = load_region "POLYGON -1 0 2 0 2 2" ∧
    (∀ (idx : IndexedPolygons) (contains : List Point → Point → Bool) (dec : ℚ),
      idx.search contains (radec_point 359 dec) = idx.search contains (radec_point (-1) dec)) := by
  have hnorm : ∀ dec : ℚ, radec_point 359 dec = radec_point (-1) dec := by
    intro dec
    simp only [radec_point]
    norm_num
  exact ⟨fun _ _ => rfl, hnorm, by decide, fun idx contains dec => by rw [hnorm]⟩

/-- C5: search is total and returns the empty list both on the index built
from zero footprints and whenever no indexed polygon contains the query
point. -/
theorem c5_search_total_empty :
    IndexedPolygons.load [] [] = .ok ⟨[], []⟩ ∧
    (∀ (contains : List Point → Point → Bool) (pt : Point),
      IndexedPolygons.search ⟨[], []⟩ contains pt = []) ∧
    (∀ (idx : IndexedPolygons) (contains : List Point → Point → Bool) (pt : Point),
      (∀ ps ∈ idx.polygons, contains ps pt = false) → idx.search contains pt = []) := by
  refine ⟨by decide, fun contains pt => rfl, fun idx contains pt h => ?_⟩
  exact searchAux_eq_nil idx.names contains pt idx.polygons 0 h

/-- Witness for C5 on a one-polygon index with a containment test that holds
nowhere. -/
theorem c5_search_total_empty_witness :
    (∀ ps ∈ ([[⟨0, 0⟩]] : List (List Point)),
      (fun (_ : List Point) (_ : Point) => false) ps (⟨0, 0⟩ : Point) = false) ∧
    IndexedPolygons.search ⟨["a"], [[⟨0, 0⟩]]⟩ (fun _ _ => false) ⟨0, 0⟩ = [] :=
  ⟨fun _ _ => rfl,
    c5_search_total_empty.2.2 ⟨["a"], [[⟨0, 0⟩]]⟩ (fun _ _ => false) ⟨0, 0⟩ (fun _ _ => rfl)⟩

/-- C6: for every schedule that covers all record indices and writes only
valid slots, the pre-sized disjoint-slot parallel loop produces exactly the
sequential result: output length equals input length and the i-th output
carries the i-th input ID, independent of worker completion order. -/
theorem c6_batch_order_preserved (idx : IndexedPolygons)
    (contains : List Point → Point → Bool) (rows : List Row) (order : List Nat)
    (hcover : ∀ j, j < rows.length → j ∈ order)
    (hvalid : ∀ j, j ∈ order → j < rows.length) :
    runSchedule idx contains rows order = locate idx contains rows ∧
    (runSchedule idx contains rows order).length = rows.length ∧
    (∀ i, i < rows.length →
      ((runSchedule idx contains rows order).getD i defaultTarget).ID =
        (rows.getD i defaultRow).ID) := by
  have heq := runSchedule_eq_locate idx contains rows order hcover hvalid
  refine ⟨heq, ?_, ?_⟩
  · rw [heq, locate, List.length_map]
  · intro i hi
    rw [heq, locate]
    rw [List.getD_eq_get?, List.getD_eq_get?, List.get?_map, List.get?_eq_get hi]
    rfl

/-- Witness for C6 with two records completed in reversed order. -/
theorem c6_batch_order_preserved_witness :
    (∀ j, j < ([⟨"t1", 0, 0⟩, ⟨"t2", 45, 45⟩] : List Row).length → j ∈ ([1, 0] : List Nat)) ∧
    (∀ j, j ∈ ([1, 0] : List Nat) → j < ([⟨"t1", 0, 0⟩, ⟨"t2", 45, 45⟩] : List Row).length) ∧
    runSchedule ⟨[], []⟩ (fun _ _ => false) [⟨"t1", 0, 0⟩, ⟨"t2", 45, 45⟩] [1, 0] =
      locate ⟨[], []⟩ (fun _ _ => false) [⟨"t1", 0, 0⟩, ⟨"t2", 45, 45⟩] := by
  have h1 : ∀ j, j < ([⟨"t1", 0, 0⟩, ⟨"t2", 45, 45⟩] : List Row).length →
      j ∈ ([1, 0] : List Nat) := by
    intro j hj
    simp only [List.length_cons, List.length_nil] at hj
    interval_cases j <;> simp
  have h2 : ∀ j, j ∈ ([1, 0] : List Nat) →
      j < ([⟨"t1", 0, 0⟩, ⟨"t2", 45, 45⟩] : List Row).length := by
    intro j hj
    simp only [List.mem_cons, List.not_mem_nil, or_false] at hj
    rcases hj with h | h <;> subst h <;> simp
  exact ⟨h1, h2,
    (c6_batch_order_preserved ⟨[], []⟩ (fun _ _ => false)
      [⟨"t1", 0, 0⟩, ⟨"t2", 45, 45⟩] [1, 0] h1 h2).1⟩

/-- C7: every produced Target carries the record's ID, ra and dec verbatim;
the observation list is the search result at the normalized query point, and
when ra exceeds 180 the query point uses ra - 360 while the stored ra field
stays the raw input. -/
theorem c7_target_preserves_input (idx : IndexedPolygons)
    (contains : List Point → Point → Bool) (r : Row) :
    (locateOne idx contains r).ID = r.ID ∧
    (locateOne idx contains r).ra = r.ra ∧
    (locateOne idx contains r).dec = r.dec ∧
    (locateOne idx contains r).observations = idx.search contains (radec_point r.ra r.dec) ∧
    (r.ra > 180 →
      (radec_point r.ra r.dec).ra = r.ra - 360 ∧ (locateOne idx contains r).ra = r.ra) := by
  refine ⟨rfl, rfl, rfl, rfl, fun h => ⟨?_, rfl⟩⟩
  simp [radec_point, h]

/-- Witness for C7 at a record whose ra is past the normalization cutoff. -/
theorem c7_target_preserves_input_witness :
    ((359 : ℚ) > 180) ∧
    (radec_point (359 : ℚ) 10).ra = 359 - 360 ∧
    (locateOne ⟨[], []⟩ (fun _ _ => false) ⟨"t", 359, 10⟩).ra = 359 := by
  have h : (359 : ℚ) > 180 := by norm_num
  have hall := c7_target_preserves_input ⟨[], []⟩ (fun _ _ => false) ⟨"t", 359, 10⟩
  exact ⟨h, (hall.2.2.2.2 h).1, (hall.2.2.2.2 h).2⟩

/-- C8 counterexample: a descriptor repeating its first vertex consecutively
parses to a stored polygon whose first two points are identical, so the
claimed no-two-consecutive-points-identical invariant does not hold of stored
polygons; only the closing duplicate is ever removed. -/
theorem c8_counterexample :
    load_region "POLYGON 0 0 0 0 10 0 10 10" =
      .ok [⟨0, 0⟩, ⟨0, 0⟩, ⟨10, 0⟩, ⟨10, 10⟩] ∧
    ([⟨0, 0⟩, ⟨0, 0⟩, ⟨10, 0⟩, ⟨10, 10⟩] : List Point).getD 0 ⟨0, 0⟩ =
      ([⟨0, 0⟩, ⟨0, 0⟩, ⟨10, 0⟩, ⟨10, 10⟩] : List Point).getD 1 ⟨0, 0⟩ ∧
    IndexedPolygons.load ["x"] ["POLYGON 0 0 0 0 10 0 10 10"] =
      .ok ⟨["x"], [[⟨0, 0⟩, ⟨0, 0⟩, ⟨10, 0⟩, ⟨10, 10⟩]]⟩ := by
  exact ⟨by decide, by decide, by decide⟩

/-- C8 amended: every stored polygon is exactly the parsed vertex sequence
after closing-duplicate removal: the last point is dropped when at least two
points were parsed and it equals the first, and otherwise the sequence is
stored unchanged (interior consecutive duplicates included). -/
theorem c8_amended_closing_duplicate_only (s : String) (rest : List String) (ps : List Point)
    (hsplit : splitParts s = "POLYGON" :: rest)
    (heven : rest.length % 2 = 0)
    (hparse : parsePairs rest = some ps) :
    load_region s = .ok (dedupClose ps) ∧
    (2 ≤ ps.length → ps.head? = ps.getLast? → dedupClose ps = ps.dropLast) ∧
    (¬(2 ≤ ps.length ∧ ps.head? = ps.getLast?) → dedupClose ps = ps) := by
  refine ⟨?_, ?_, ?_⟩
  · unfold load_region
    rw [hsplit]
    simp [heven, hparse]
  · intro h1 h2
    unfold dedupClose
    rw [if_pos ⟨h1, h2⟩]
  · intro h
    unfold dedupClose
    rw [if_neg h]

/-- Witness for the amended C8 theorem on an explicitly closed square. -/
theorem c8_amended_closing_duplicate_only_witness :
    splitParts "POLYGON 0 0 10 0 10 10 0 0" =
      "POLYGON" :: ["0", "0", "10", "0", "10", "10", "0", "0"] ∧
    parsePairs ["0", "0", "10", "0", "10", "10", "0", "0"] =
      some [⟨0, 0⟩, ⟨10, 0⟩, ⟨10, 10⟩, ⟨0, 0⟩] ∧
    load_region "POLYGON 0 0 10 0 10 10 0 0" =
      .ok (dedupClose [⟨0, 0⟩, ⟨10, 0⟩, ⟨10, 10⟩, ⟨0, 0⟩]) := by
  have hs : splitParts "POLYGON 0 0 10 0 10 10 0 0" =
      "POLYGON" :: ["0", "0", "10", "0", "10", "10", "0", "0"] := by decide
  have hp : parsePairs ["0", "0", "10", "0", "10", "10", "0", "0"] =
      some [⟨0, 0⟩, ⟨10, 0⟩, ⟨10, 10⟩, ⟨0, 0⟩] := by decide
  exact ⟨hs, hp,
    (c8_amended_closing_duplicate_only "POLYGON 0 0 10 0 10 10 0 0" _ _ hs (by decide) hp).1⟩

/-- C9: a coordinate token is rejected by std::stod exactly when it has no
leading numeric prefix; a token that is a number followed by non-numeric
characters is accepted with the value of its numeric prefix, and such a token
contributes that value to the parsed vertex. -/
theorem c9_token_numeric_head :
    (∀ s : String, stod s = none ↔ hasNumericStart s = false) ∧
    stod "12abc" = some 12 ∧
    stod "abc" = none ∧
    load_region "POLYGON 12abc 3 0 0 10 0 10 10" =
      .ok [⟨12, 3⟩, ⟨0, 0⟩, ⟨10, 0⟩, ⟨10, 10⟩] := by
  exact ⟨stod_eq_none_iff, by decide, by decide, by decide⟩

/-- C10: on a successfully built index, the i-th registered polygon is the
parse of the i-th region string, the ID list is the dataset's ID column of the
same length, every name returned by search is one of the loaded IDs, and a
containment hit at position i is reported under the i-th ID. -/
theorem c10_positional_correspondence (names regions : List String) (idx : IndexedPolygons)
    (h : IndexedPolygons.load names regions = .ok idx) :
    idx.names = names ∧
    idx.polygons.length = regions.length ∧
    names.length = regions.length ∧
    (∀ i, i < regions.length → load_region (regions.getD i "") = .ok (idx.polygons.getD i [])) ∧
    (∀ (contains : List Point → Point → Bool) (pt : Point) (n : String),
      n ∈ idx.search contains pt → n ∈ names) ∧
    (∀ (contains : List Point → Point → Bool) (pt : Point) (i : Nat),
      i < regions.length → contains (idx.polygons.getD i []) pt = true →
        names.getD i "" ∈ idx.search contains pt) := by
  unfold IndexedPolygons.load at h
  by_cases hlen : names.length ≠ regions.length
  · rw [if_pos hlen] at h
    exact BuildResult.noConfusion h
  rw [if_neg hlen] at h
  push_neg at hlen
  cases hb : buildPolygons regions with
  | none => rw [hb] at h; exact BuildResult.noConfusion h
  | some ps =>
      rw [hb] at h
      injection h with h
      subst h
      rcases buildPolygons_spec regions ps hb with ⟨hpl, hpi⟩
      refine ⟨rfl, hpl, hlen, hpi, ?_, ?_⟩
      · intro contains pt n hn
        rcases mem_searchAux names contains pt ps 0 n hn with ⟨j, hj, _, hnj⟩
        rw [hnj, Nat.zero_add]
        have hjn : j < names.length := by omega
        rw [List.getD_eq_getElem names "" hjn]
        exact List.getElem_mem hjn
      · intro contains pt i hi hc
        have := searchAux_mem_of_contains names contains pt ps 0 i (by omega) hc
        simpa using this

/-- Witness for C10 on a one-footprint dataset with a containment test that
holds everywhere. -/
theorem c10_positional_correspondence_witness :
    IndexedPolygons.load ["a"] ["POLYGON 0 0 10 0 10 10"] =
      .ok ⟨["a"], [[⟨0, 0⟩, ⟨10, 0⟩, ⟨10, 10⟩]]⟩ ∧
    (⟨["a"], [[⟨0, 0⟩, ⟨10, 0⟩, ⟨10, 10⟩]]⟩ : IndexedPolygons).polygons.length = 1 := by
  have h : IndexedPolygons.load ["a"] ["POLYGON 0 0 10 0 10 10"] =
      .ok ⟨["a"], [[⟨0, 0⟩, ⟨10, 0⟩, ⟨10, 10⟩]]⟩ := by decide
  refine ⟨h, ?_⟩
  exact (c10_positional_correspondence ["a"] ["POLYGON 0 0 10 0 10 10"]
    ⟨["a"], [[⟨0, 0⟩, ⟨10, 0⟩, ⟨10, 10⟩]]⟩ h).2.1

end ClaimTheorems

end Tesslocate
